import Mathlib

set_option maxRecDepth 100000

/-!
Shallow embedding of `scripts/parse_logs.py` (FreeClimb call-log timeline
renderer).  JSON values are modelled by the inductive type `JVal`; the
dynamically-typed Python operations used by the script (`dict.get`,
subscripting, `in`, truthiness, iteration, `==`, `//`, f-string rendering)
are modelled by total Lean functions returning `Except PyErr` where the
Python operation can raise.  The whole script is the function `runScript`,
returning the printed lines together with an optional uncaught exception.
-/

namespace VoxLogs

/-- The Python exception classes that the modelled operations can raise. -/
inductive PyErr where
  | keyError
  | typeError
  | attrError
  | indexError
  | valueError
deriving DecidableEq, Repr

/-- A JSON value as produced by `json.load` / `json.loads`: `None`, `bool`,
`int`, `str`, `list`, `dict`.  JSON numbers are modelled as integers only;
floating-point payloads are out of scope. -/
inductive JVal where
  | null
  | bool (b : Bool)
  | num (n : Int)
  | str (s : String)
  | arr (xs : List JVal)
  | obj (kvs : List (String × JVal))
deriving Repr

/-- Key lookup in a dict's association list.  `json.loads` produces dicts
with unique keys (later duplicates overwrite, handled in `insertKV`), so
first-match lookup agrees with Python dict lookup. -/
def lookupField : List (String × JVal) → String → Option JVal
  | [], _ => none
  | (k, v) :: rest, key => if k = key then some v else lookupField rest key

/-- Python `d.get(key, dflt)`.  Raises `AttributeError` when the receiver is
not a dict (strings, lists, numbers, booleans and `None` have no `.get`). -/
def pyGet (v : JVal) (key : String) (dflt : JVal) : Except PyErr JVal :=
  match v with
  | .obj kvs => .ok ((lookupField kvs key).getD dflt)
  | _ => .error .attrError

/-- Python truthiness (`if v:`). -/
def pyTruthy : JVal → Bool
  | .null => false
  | .bool b => b
  | .num n => n != 0
  | .str s => s != ""
  | .arr xs => !xs.isEmpty
  | .obj kvs => !kvs.isEmpty

mutual

/-- Python `==` on JSON-shaped values.  Booleans are integers in Python
(`True == 1`); containers compare element-wise; dicts compare as key-value
maps; values of unrelated types compare unequal.  Never raises. -/
def pyEq : JVal → JVal → Bool
  | .null, .null => true
  | .bool a, .bool b => a == b
  | .bool a, .num m => (if a then (1 : Int) else 0) == m
  | .num n, .bool b => n == (if b then (1 : Int) else 0)
  | .num n, .num m => n == m
  | .str s, .str t => s == t
  | .arr xs, .arr ys => pyEqList xs ys
  | .obj xs, .obj ys => xs.length == ys.length && pyEqFields xs ys
  | _, _ => false

/-- Element-wise list equality for `pyEq`. -/
def pyEqList : List JVal → List JVal → Bool
  | [], [] => true
  | x :: xs, y :: ys => pyEq x y && pyEqList xs ys
  | _, _ => false

/-- Every field of the first dict is present with a `pyEq`-equal value in
the second dict (combined with a length check in `pyEq`, this is dict
equality for unique-key dicts). -/
def pyEqFields : List (String × JVal) → List (String × JVal) → Bool
  | [], _ => true
  | (k, v) :: rest, ys =>
    (match lookupField ys k with
     | some w => pyEq v w
     | none => false) && pyEqFields rest ys

end

/-- Python iteration (`for x in v`): lists yield elements, dicts yield keys,
strings yield their characters as one-character strings; other values raise
`TypeError`. -/
def pyIter : JVal → Except PyErr (List JVal)
  | .arr xs => .ok xs
  | .obj kvs => .ok (kvs.map (fun kv => JVal.str kv.1))
  | .str s => .ok (s.toList.map (fun c => JVal.str (String.mk [c])))
  | _ => .error .typeError

/-- Python `v[0]`: list indexing (IndexError on empty), string indexing
(first character), dict subscripting by the int key `0` (always KeyError
here since JSON dict keys are strings); other receivers raise TypeError. -/
def pyIndexZero : JVal → Except PyErr JVal
  | .arr [] => .error .indexError
  | .arr (x :: _) => .ok x
  | .str s =>
    match s.toList with
    | [] => .error .indexError
    | c :: _ => .ok (.str (String.mk [c]))
  | .obj _ => .error .keyError
  | _ => .error .typeError

/-- Python `v[key]` with a string key: dict subscripting (KeyError when the
key is missing); other receivers raise TypeError. -/
def pySubscriptStr (v : JVal) (key : String) : Except PyErr JVal :=
  match v with
  | .obj kvs =>
    match lookupField kvs key with
    | some w => .ok w
    | none => .error .keyError
  | _ => .error .typeError

mutual

/-- Python `repr` of a JSON-shaped value (simplified: string contents are
not escaped; the script only ever reprs plain texts). -/
def reprJ : JVal → String
  | .null => "None"
  | .bool b => if b then "True" else "False"
  | .num n => toString n
  | .str s => "\x27" ++ s ++ "\x27"
  | .arr xs => "[" ++ String.intercalate ", " (reprList xs) ++ "]"
  | .obj kvs => "\x7b" ++ String.intercalate ", " (reprFields kvs) ++ "\x7d"

/-- `repr` of each list element. -/
def reprList : List JVal → List String
  | [] => []
  | x :: xs => reprJ x :: reprList xs

/-- `repr` of each dict entry. -/
def reprFields : List (String × JVal) → List String
  | [] => []
  | (k, v) :: rest => ("\x27" ++ k ++ "\x27: " ++ reprJ v) :: reprFields rest

end

/-- Python `str(v)` as used by f-string interpolation: a string renders as
itself, every other value by its `repr` (for `None`/`True`/ints this is
exactly `str`). -/
def pyStrOf : JVal → String
  | .str s => s
  | v => reprJ v

/-- Attempted match of the regex `[&?]n=(\d+)` anchored at the head of the
character list: returns group 1 (the maximal digit run) when the head
matches. -/
def nParamAt : List Char → Option String
  | a :: 'n' :: '=' :: rest =>
    if a = '&' ∨ a = '?' then
      let ds := rest.takeWhile Char.isDigit
      if ds.isEmpty then none else some (String.mk ds)
    else none
  | _ => none

/-- `re.search(r"[&?]n=(\d+)", s).group(1)`: group 1 of the leftmost match,
`none` when the pattern does not occur. -/
def nParamSearch : List Char → Option String
  | [] => none
  | c :: rest =>
    match nParamAt (c :: rest) with
    | some g => some g
    | none => nParamSearch rest

/-- Attempted match of the regex `id=([^&]+)` anchored at the head of the
character list: returns group 1 (the maximal run of non-`&` characters,
required non-empty) when the head matches. -/
def idParamAt : List Char → Option String
  | 'i' :: 'd' :: '=' :: rest =>
    let g := rest.takeWhile (fun c => c ≠ '&')
    if g.isEmpty then none else some (String.mk g)
  | _ => none

/-- `re.search(r"id=([^&]+)", s).group(1)`: group 1 of the leftmost match,
`none` when the pattern does not occur. -/
def idParamSearch : List Char → Option String
  | [] => none
  | c :: rest =>
    match idParamAt (c :: rest) with
    | some g => some g
    | none => idParamSearch rest

/-- Substring test helper: does the pattern occur in the character list? -/
def subAux (pat : List Char) : List Char → Bool
  | [] => pat.isEmpty
  | c :: rest => pat.isPrefixOf (c :: rest) || subAux pat rest

/-- Python `needle in s` for strings: substring containment. -/
def containsSub (s needle : String) : Bool :=
  subAux needle.toList s.toList

/-- Python `needle in v` for a string needle: dicts test key membership,
lists test element membership (`==`), strings test substring containment;
other receivers raise TypeError. -/
def pyInJ (needle : String) (v : JVal) : Except PyErr Bool :=
  match v with
  | .obj kvs => .ok (lookupField kvs needle).isSome
  | .arr xs => .ok (xs.any (fun x => pyEq x (.str needle)))
  | .str s => .ok (containsSub s needle)
  | _ => .error .typeError

/-- Python `v // 1_000_000` (floor division; Python booleans are the
integers 0/1): TypeError for non-numeric values. -/
def pyFloorDivMega : JVal → Except PyErr Int
  | .num n => .ok (Int.fdiv n 1000000)
  | .bool b => .ok (Int.fdiv (if b then 1 else 0) 1000000)
  | _ => .error .typeError

/-- The `{` character (written via its code point). -/
def lbraceC : Char := Char.ofNat 123

/-- The `}` character (written via its code point). -/
def rbraceC : Char := Char.ofNat 125

/-- Skip JSON whitespace (space, tab, newline, carriage return). -/
def skipWs : List Char → List Char
  | [] => []
  | c :: rest =>
    if c = ' ' ∨ c = '\t' ∨ c = '\n' ∨ c = '\r' then skipWs rest else c :: rest

/-- Value of one hexadecimal digit. -/
def hexVal (c : Char) : Option Nat :=
  if '0' ≤ c ∧ c ≤ '9' then some (c.toNat - 48)
  else if 'a' ≤ c ∧ c ≤ 'f' then some (c.toNat - 87)
  else if 'A' ≤ c ∧ c ≤ 'F' then some (c.toNat - 55)
  else none

/-- JSON single-character string escapes. -/
def escChar : Char → Option Char
  | '"' => some '"'
  | '\\' => some '\\'
  | '/' => some '/'
  | 'b' => some (Char.ofNat 8)
  | 'f' => some (Char.ofNat 12)
  | 'n' => some '\n'
  | 'r' => some '\r'
  | 't' => some '\t'
  | _ => none

/-- Parse the body of a JSON string, starting just after the opening quote;
returns the content and the remainder after the closing quote.  Raw control
characters are rejected (strict mode), standard escapes and `\uXXXX` are
decoded. -/
def parseStrChars (fuel : Nat) (cs : List Char) : Option (List Char × List Char) :=
  match fuel with
  | 0 => none
  | fuel + 1 =>
    match cs with
    | [] => none
    | '"' :: rest => some ([], rest)
    | '\\' :: e :: rest =>
      if e = 'u' then
        match rest with
        | h1 :: h2 :: h3 :: h4 :: rest2 =>
          match hexVal h1, hexVal h2, hexVal h3, hexVal h4 with
          | some a, some b, some c, some d =>
            (parseStrChars fuel rest2).map
              (fun out => (Char.ofNat (((a * 16 + b) * 16 + c) * 16 + d) :: out.1, out.2))
          | _, _, _, _ => none
        | _ => none
      else
        match escChar e with
        | some c2 => (parseStrChars fuel rest).map (fun out => (c2 :: out.1, out.2))
        | none => none
    | c :: rest =>
      if c.toNat < 32 then none
      else (parseStrChars fuel rest).map (fun out => (c :: out.1, out.2))

/-- Digit run to integer. -/
def digitsToInt (ds : List Char) : Int :=
  ds.foldl (fun acc c => acc * 10 + (((c.toNat - 48) : Nat) : Int)) 0

/-- Parse a JSON unsigned integer (`0` or a nonzero digit followed by
digits; a leading zero cannot be followed by more digits). -/
def parseUIntNum (cs : List Char) : Option (Int × List Char) :=
  match cs with
  | [] => none
  | '0' :: rest => some (0, rest)
  | c :: rest =>
    if c.isDigit then
      let p := rest.span Char.isDigit
      some (digitsToInt (c :: p.1), p.2)
    else none

/-- Parse a JSON integer with optional leading minus sign.  JSON floats are
out of scope of this model (the record fields the script consumes are
integers and strings). -/
def parseIntNum (cs : List Char) : Option (Int × List Char) :=
  match cs with
  | '-' :: rest =>
    match parseUIntNum rest with
    | some p => some (-p.1, p.2)
    | none => none
  | _ => parseUIntNum cs

/-- Insert a key-value pair into a dict association list, Python style: an
existing key keeps its position and gets the new value (later duplicate
keys in a JSON text overwrite earlier ones). -/
def insertKV (kvs : List (String × JVal)) (k : String) (v : JVal) : List (String × JVal) :=
  match kvs with
  | [] => [(k, v)]
  | (k2, v2) :: rest => if k2 = k then (k2, v) :: rest else (k2, v2) :: insertKV rest k v

mutual

/-- Recursive-descent JSON value parser (model of `json.loads`), fuel-bounded. -/
def parseVal (fuel : Nat) (cs : List Char) : Option (JVal × List Char) :=
  match fuel with
  | 0 => none
  | fuel + 1 =>
    match skipWs cs with
    | [] => none
    | '"' :: rest =>
      match parseStrChars (rest.length + 1) rest with
      | some (content, rem) => some (.str (String.mk content), rem)
      | none => none
    | 't' :: 'r' :: 'u' :: 'e' :: rest => some (.bool true, rest)
    | 'f' :: 'a' :: 'l' :: 's' :: 'e' :: rest => some (.bool false, rest)
    | 'n' :: 'u' :: 'l' :: 'l' :: rest => some (.null, rest)
    | '[' :: rest => parseArrayStart fuel rest
    | c :: rest =>
      if c = lbraceC then parseMembersStart fuel rest
      else if c = '-' ∨ c.isDigit then
        match parseIntNum (c :: rest) with
        | some p => some (.num p.1, p.2)
        | none => none
      else none

/-- Parse an array body, just after `[`. -/
def parseArrayStart (fuel : Nat) (cs : List Char) : Option (JVal × List Char) :=
  match fuel with
  | 0 => none
  | fuel + 1 =>
    match skipWs cs with
    | ']' :: rest => some (.arr [], rest)
    | other =>
      match parseVal fuel other with
      | some (v, rem) => parseArrayMore fuel [v] rem
      | none => none

/-- Parse the rest of an array after at least one element (accumulator in
reverse order). -/
def parseArrayMore (fuel : Nat) (acc : List JVal) (cs : List Char) : Option (JVal × List Char) :=
  match fuel with
  | 0 => none
  | fuel + 1 =>
    match skipWs cs with
    | ']' :: rest => some (.arr acc.reverse, rest)
    | ',' :: rest =>
      match parseVal fuel rest with
      | some (v, rem) => parseArrayMore fuel (v :: acc) rem
      | none => none
    | _ => none

/-- Parse one `"key": value` member. -/
def parseMember (fuel : Nat) (cs : List Char) : Option (String × JVal × List Char) :=
  match fuel with
  | 0 => none
  | fuel + 1 =>
    match skipWs cs with
    | '"' :: rest =>
      match parseStrChars (rest.length + 1) rest with
      | some (kcs, rem) =>
        match skipWs rem with
        | ':' :: rem2 =>
          match parseVal fuel rem2 with
          | some (v, rem3) => some (String.mk kcs, v, rem3)
          | none => none
        | _ => none
      | none => none
    | _ => none

/-- Parse an object body, just after the opening brace. -/
def parseMembersStart (fuel : Nat) (cs : List Char) : Option (JVal × List Char) :=
  match fuel with
  | 0 => none
  | fuel + 1 =>
    match skipWs cs with
    | [] => none
    | c :: rest =>
      if c = rbraceC then some (.obj [], rest)
      else
        match parseMember fuel (c :: rest) with
        | some (k, v, rem) => parseMembersMore fuel (insertKV [] k v) rem
        | none => none

/-- Parse the rest of an object after at least one member. -/
def parseMembersMore (fuel : Nat) (acc : List (String × JVal)) (cs : List Char) :
    Option (JVal × List Char) :=
  match fuel with
  | 0 => none
  | fuel + 1 =>
    match skipWs cs with
    | [] => none
    | c :: rest =>
      if c = rbraceC then some (.obj acc, rest)
      else if c = ',' then
        match parseMember fuel rest with
        | some (k, v, rem) => parseMembersMore fuel (insertKV acc k v) rem
        | none => none
      else none

end

/-- Model of Python `json.loads` on a string: parse one JSON value and
require only whitespace to remain.  `none` models a raised `ValueError`
(`json.JSONDecodeError`). -/
def jsonLoads (s : String) : Option JVal :=
  let cs := s.toList
  match parseVal (2 * cs.length + 4) cs with
  | some (v, rest) => if (skipWs rest).isEmpty then some v else none
  | none => none

/-- The `Play` command branch: `cmd[k].get("file", "")`, then
`re.search(r"id=([^&]+)", file_url)`, default `"?"`, truncated to 24
characters, rendered `Play(<id>)`.  `re.search` raises TypeError when the
`file` value is not a string. -/
def playName (cmd : JVal) : Except PyErr JVal := do
  let v ← pySubscriptStr cmd "Play"
  let fileUrl ← pyGet v "file" (.str "")
  match fileUrl with
  | .str s => .ok (.str ("Play(" ++ (((idParamSearch s.toList).getD "?").take 24) ++ ")"))
  | _ => .error .typeError

/-- The `Redirect` command branch: `cmd[k].get("actionUrl", "")`, then
`re.search(r"[&?]n=(\d+)", action)`, default `"?"`, rendered
`Redirect(n=<n>)`. -/
def redirectName (cmd : JVal) : Except PyErr JVal := do
  let v ← pySubscriptStr cmd "Redirect"
  let action ← pyGet v "actionUrl" (.str "")
  match action with
  | .str s => .ok (.str ("Redirect(n=" ++ ((nParamSearch s.toList).getD "?") ++ ")"))
  | _ => .error .typeError

/-- One iteration of the inner `for k in cmd` loop of the response-command
decoder: the name appended to `cmd_names` for key `k` (any value other than
the three known command names is appended unchanged, so the appended value
need not be a string). -/
def cmdName (cmd : JVal) (k : JVal) : Except PyErr JVal :=
  if pyEq k (.str "Play") then playName cmd
  else if pyEq k (.str "TranscribeUtterance") then .ok (.str "Listen")
  else if pyEq k (.str "Redirect") then redirectName cmd
  else .ok k

/-- The nested `for cmd in cmds: for k in cmd:` loops, collecting
`cmd_names` in order. -/
def cmdNames : List JVal → Except PyErr (List JVal)
  | [] => .ok []
  | cmd :: rest => do
    let ks ← pyIter cmd
    let names ← ks.mapM (cmdName cmd)
    let more ← cmdNames rest
    .ok (names ++ more)

/-- A `cmd_names` entry viewed as a Python string: `str.join` raises
TypeError on a non-string element. -/
def strOfJ : JVal → Except PyErr String
  | .str s => .ok s
  | _ => .error .typeError

/-- Python `" + ".join(cmd_names)`. -/
def joinNames (names : List JVal) : Except PyErr String := do
  let ss ← names.mapM strOfJ
  .ok (String.intercalate " + " ss)

/-- The body of the `try:` block decoding a string `responseBody`: parse as
JSON, iterate commands, render and join their names, producing the suffix
`" -> <joined names>"`.  Any failure is an exception reaching the
`except`. -/
def respSuffixCore (resp : String) : Except PyErr String := do
  let cmds ← match jsonLoads resp with
    | some v => Except.ok v
    | none => Except.error PyErr.valueError
  let items ← pyIter cmds
  let names ← cmdNames items
  let joined ← joinNames names
  .ok (" -> " ++ joined)

/-- The `try/except` around response-command decoding for a string
`responseBody`: on any exception, fall back to
`" -> <first 80 characters of responseBody>"`. -/
def respSuffix (resp : String) : String :=
  match respSuffixCore resp with
  | .ok s => s
  | .error _ => " -> " ++ resp.take 80

/-- The whole `if resp:` suffix block for a general `responseBody` value.
For a non-string truthy value, `json.loads(resp)` raises TypeError inside
the `try`; the `except` handler then evaluates `resp[:80]`, which succeeds
for a list (rendering its repr) and itself raises — uncaught — for dicts,
numbers and booleans. -/
def respPart (resp : JVal) : Except PyErr String :=
  match resp with
  | .str s => .ok (respSuffix s)
  | .arr xs => .ok (" -> " ++ reprJ (.arr (xs.take 80)))
  | _ => .error .typeError

/-- The kind-classification chain (lines 37-51 of the script), producing
the second element of `parts`.  The two `elif` conditions each evaluate
`body.get("requestType")`; being pure, one shared evaluation is
equivalent. -/
def kindPart (meta body resp : JVal) : Except PyErr String := do
  let hasT ← pyInJ "transcript" body
  if hasT then do
    let reason ← pyGet body "transcribeReason" (.str "?")
    let transcript ← pyGet body "transcript" (.str "")
    .ok ("SPEECH  reason=" ++ pyStrOf reason ++ "  \"" ++ pyStrOf transcript ++ "\"")
  else do
    let rt ← pyGet body "requestType" .null
    if pyEq rt (.str "inboundCall") then do
      let f ← pyGet body "from" (.str "?")
      let t ← pyGet body "to" (.str "?")
      .ok ("CALL    from=" ++ pyStrOf f ++ " to=" ++ pyStrOf t)
    else if pyEq rt (.str "redirect") then do
      let rh ← pyGet meta "requestHeaders" (.obj [])
      let urls ← pyGet rh "url" (.arr [.str ""])
      let u ← pyIndexZero urls
      match u with
      | .str s => .ok ("REDIR   n=" ++ ((nParamSearch s.toList).getD "?"))
      | _ => .error .typeError
    else if pyTruthy resp then .ok "RESP"
    else .ok "EVENT"

/-- `f"+{offset:>4}s"`: the decimal rendering of the offset right-aligned
to width 4 with spaces, between `+` and `s`. -/
def offsetField (offset : Int) : String :=
  let s := toString offset
  "+" ++ String.mk (List.replicate (4 - s.length) ' ') ++ s ++ "s"

/-- One iteration of the main per-record loop (lines 28-76): build `parts`
and join with two spaces, or raise. -/
def renderRecord (t0 : Int) (l : JVal) : Except PyErr String := do
  let tsv ← pySubscriptStr l "timestamp"
  let tsecs ← pyFloorDivMega tsv
  let offset := tsecs - t0
  let meta ← pyGet l "metadata" (.obj [])
  let body ← pyGet meta "requestBody" (.obj [])
  let resp ← pyGet meta "responseBody" (.str "")
  let kind ← kindPart meta body resp
  let parts ←
    if pyTruthy resp then do
      let sfx ← respPart resp
      pure [offsetField offset, kind, sfx]
    else pure [offsetField offset, kind]
  .ok (String.intercalate "  " parts)

/-- The main loop over the sorted records: lines printed before any
uncaught exception, plus that exception if one was raised. -/
def renderLoop (t0 : Int) : List JVal → List String × Option PyErr
  | [] => ([], none)
  | l :: rest =>
    match renderRecord t0 l with
    | .ok line =>
      let p := renderLoop t0 rest
      (line :: p.1, p.2)
    | .error e => ([], some e)

/-- `[l for l in logs if l.get("callId") == call_id]` over the already
materialised iteration of `logs`. -/
def filterCall (cid : JVal) : List JVal → Except PyErr (List JVal)
  | [] => .ok []
  | l :: rest => do
    let c ← pyGet l "callId" .null
    let r ← filterCall cid rest
    .ok (if pyEq c cid then l :: r else r)

/-- The sort key `x["timestamp"]` of one record, as an integer (Python
booleans are the integers 0/1).  A missing key raises KeyError during key
extraction; a non-numeric key value makes the pipeline raise TypeError (in
Python either at a sort comparison or at the subsequent
`// 1_000_000`; the lines printed before the exception are the same). -/
def tsInt (l : JVal) : Except PyErr Int := do
  let v ← pySubscriptStr l "timestamp"
  match v with
  | .num n => .ok n
  | .bool b => .ok (if b then 1 else 0)
  | _ => .error .typeError

/-- Boolean order used for the stable sort: by key, ties broken by
original position, which makes any sorted result unique and equal to the
result of Python's stable `list.sort`. -/
def leKey (a b : Nat × Int × JVal) : Bool :=
  decide (a.2.1 < b.2.1) || (decide (a.2.1 = b.2.1) && decide (a.1 ≤ b.1))

/-- Stable sort of (key, record) pairs: tag with original positions, merge
sort by `leKey`, untag. -/
def sortTagged (pairs : List (Int × JVal)) : List (Nat × Int × JVal) :=
  pairs.enum.mergeSort leKey

/-- `call_logs.sort(key=lambda x: x["timestamp"])`: extract all keys (in
order), then sort stably by key. -/
def sortRecords (fl : List JVal) : Except PyErr (List JVal) := do
  let keys ← fl.mapM tsInt
  .ok ((sortTagged (keys.zip fl)).map (fun p => p.2.2))

/-- The 80-dash separator line. -/
def dashes : String := String.mk (List.replicate 80 '-')

/-- Result of one script run: the lines printed to stdout, and the uncaught
exception if the run died with one (`none` = clean `exit 0`). -/
structure RunResult where
  lines : List String
  err : Option PyErr
deriving Repr

/-- The whole script, from the parsed stdin document `data` and the
optional first command-line argument.  Follows lines 5-76 of
`scripts/parse_logs.py` step by step. -/
def runScript (argv1 : Option String) (data : JVal) : RunResult :=
  match pyGet data "logs" (.arr []) with
  | .error e => ⟨[], some e⟩
  | .ok logs =>
    if pyTruthy logs = false then ⟨["No logs found."], none⟩
    else
      let argId := (argv1.getD "")
      match (if argId = "" then do
               let l0 ← pyIndexZero logs
               pyGet l0 "callId" (.str "")
             else Except.ok (.str argId) : Except PyErr JVal) with
      | .error e => ⟨[], some e⟩
      | .ok cid =>
        let pre : List String :=
          if argId = "" then ["Most recent call: " ++ pyStrOf cid] else []
        match (do
                let items ← pyIter logs
                let fl ← filterCall cid items
                sortRecords fl : Except PyErr (List JVal)) with
        | .error e => ⟨pre, some e⟩
        | .ok sl =>
          if sl.isEmpty then ⟨pre ++ ["No logs for callId=" ++ pyStrOf cid], none⟩
          else
            match (do
                    let tsv ← pySubscriptStr (sl.headD .null) "timestamp"
                    pyFloorDivMega tsv : Except PyErr Int) with
            | .error e => ⟨pre, some e⟩
            | .ok t0 =>
              let header :=
                "Call: " ++ pyStrOf cid ++ "  (" ++ toString sl.length ++ " events)"
              let p := renderLoop t0 sl
              ⟨pre ++ [header, dashes] ++ p.1, p.2⟩

/-- Statement-side accessor following the spec's words for the REDIR rule:
"the first element of `requestHeaders.url` (default empty string if the
list or the field is absent)".  `none` when the shape is outside the spec's
description (non-dict headers, non-list url, or url whose first element is
not a string). -/
def urlOfHeaders (hkvs : List (String × JVal)) : Option String :=
  match lookupField hkvs "url" with
  | none => some ""
  | some (.arr (JVal.str u :: _)) => some u
  | some _ => none

/-- Statement-side accessor, outer layer of `urlFirstStr`: dispatch on the
presence and shape of `requestHeaders`. -/
def urlFirstStr (mkvs : List (String × JVal)) : Option String :=
  match lookupField mkvs "requestHeaders" with
  | none => some ""
  | some (.obj hkvs) => urlOfHeaders hkvs
  | some _ => none

/-- Statement-side accessor following the spec's words for the Play rule:
"look up `file` field of the command's value (default empty string)".
`none` when the field holds a non-string. -/
def fileFieldStr (vkvs : List (String × JVal)) : Option String :=
  match lookupField vkvs "file" with
  | none => some ""
  | some (.str s) => some s
  | some _ => none

/-! ### Helper lemmas -/

theorem ebind_ok {α β : Type} (a : α) (f : α → Except PyErr β) :
    (Except.ok a >>= f) = f a := rfl

theorem ebind_err {α β : Type} (e : PyErr) (f : α → Except PyErr β) :
    ((Except.error e : Except PyErr α) >>= f) = Except.error e := rfl

theorem pyEq_str_iff (v : JVal) (s : String) : pyEq v (.str s) = true ↔ v = .str s := by
  cases v <;> simp [pyEq]

theorem pyGet_obj (kvs : List (String × JVal)) (key : String) (d : JVal) :
    pyGet (.obj kvs) key d = .ok ((lookupField kvs key).getD d) := rfl

theorem pySubscriptStr_obj (kvs : List (String × JVal)) (key : String) :
    pySubscriptStr (.obj kvs) key =
      (match lookupField kvs key with
       | some w => .ok w
       | none => .error .keyError) := rfl

theorem pyInJ_obj (needle : String) (kvs : List (String × JVal)) :
    pyInJ needle (.obj kvs) = .ok (lookupField kvs needle).isSome := rfl

theorem leKey_trans (a b c : Nat × Int × JVal) :
    leKey a b = true → leKey b c = true → leKey a c = true := by
  simp only [leKey, Bool.or_eq_true, Bool.and_eq_true, decide_eq_true_eq]
  omega

theorem leKey_total (a b : Nat × Int × JVal) : (leKey a b || leKey b a) = true := by
  simp only [leKey, Bool.or_eq_true, Bool.and_eq_true, decide_eq_true_eq]
  omega

theorem sortTagged_perm (pairs : List (Int × JVal)) : (sortTagged pairs).Perm pairs.enum :=
  List.mergeSort_perm _ _

theorem sortTagged_pairwise (pairs : List (Int × JVal)) :
    (sortTagged pairs).Pairwise (fun a b => leKey a b = true) :=
  List.sorted_mergeSort leKey_trans leKey_total _

theorem mapM_ok_cons {α β : Type} (f : α → Except PyErr β) (x : α) (xs : List α)
    (ys : List β) (h : (x :: xs).mapM f = .ok ys) :
    ∃ y ys2, f x = .ok y ∧ xs.mapM f = .ok ys2 ∧ ys = y :: ys2 := by
  rw [List.mapM_cons] at h
  cases hfx : f x with
  | error e => rw [hfx, ebind_err] at h; exact absurd h (by simp)
  | ok y =>
    rw [hfx, ebind_ok] at h
    cases hxs : xs.mapM f with
    | error e => rw [hxs, ebind_err] at h; exact absurd h (by simp)
    | ok ys2 =>
      rw [hxs, ebind_ok] at h
      exact ⟨y, ys2, rfl, rfl, by simpa [pure, Except.pure] using h.symm⟩

theorem mapM_ok_length {α β : Type} (f : α → Except PyErr β) (xs : List α) (ys : List β)
    (h : xs.mapM f = .ok ys) : ys.length = xs.length := by
  induction xs generalizing ys with
  | nil =>
    rw [List.mapM_nil] at h
    simp only [pure, Except.pure, Except.ok.injEq] at h
    simp [← h]
  | cons x xs ih =>
    obtain ⟨y, ys2, _, hxs, rfl⟩ := mapM_ok_cons f x xs ys h
    simp [ih ys2 hxs]

theorem mapM_tsInt_zip (fl : List JVal) (keys : List Int) (h : fl.mapM tsInt = .ok keys) :
    ∀ p ∈ keys.zip fl, tsInt p.2 = .ok p.1 := by
  induction fl generalizing keys with
  | nil =>
    rw [List.mapM_nil] at h
    simp only [pure, Except.pure, Except.ok.injEq] at h
    simp [← h]
  | cons x xs ih =>
    obtain ⟨y, ys2, hfx, hxs, rfl⟩ := mapM_ok_cons tsInt x xs keys h
    intro p hp
    rcases List.mem_cons.mp hp with rfl | hp2
    · exact hfx
    · exact ih ys2 hxs p hp2

theorem mapM_err_of_mem {α β : Type} (f : α → Except PyErr β) (xs : List α) (x : α)
    (e : PyErr) (hx : x ∈ xs) (he : f x = .error e) :
    ∃ e2, xs.mapM f = .error e2 := by
  induction xs with
  | nil => cases hx
  | cons y ys ih =>
    rw [List.mapM_cons]
    rcases List.mem_cons.mp hx with rfl | hx2
    · exact ⟨e, by rw [he, ebind_err]⟩
    · cases hfy : f y with
      | error e3 => exact ⟨e3, by rw [ebind_err]⟩
      | ok v =>
        obtain ⟨e2, h2⟩ := ih hx2
        exact ⟨e2, by rw [ebind_ok, h2, ebind_err]⟩

theorem mem_zip_of_mem {α β : Type} (keys : List α) (fl : List β)
    (h : keys.length = fl.length) (l : β) (hl : l ∈ fl) : ∃ k, (k, l) ∈ keys.zip fl := by
  induction fl generalizing keys with
  | nil => cases hl
  | cons x xs ih =>
    cases keys with
    | nil => simp at h
    | cons k ks =>
      rcases List.mem_cons.mp hl with rfl | hl2
      · exact ⟨k, List.mem_cons_self _ _⟩
      · obtain ⟨k2, hk2⟩ := ih ks (by simpa using h) hl2
        exact ⟨k2, List.mem_cons_of_mem _ hk2⟩

theorem sortRecords_eq (fl : List JVal) (keys : List Int) (h : fl.mapM tsInt = .ok keys) :
    sortRecords fl = .ok ((sortTagged (keys.zip fl)).map (fun p => p.2.2)) := by
  unfold sortRecords
  rw [h, ebind_ok]

theorem mem_of_sortRecords (fl : List JVal) (keys : List Int) (sl : List JVal) (l : JVal)
    (hk : fl.mapM tsInt = .ok keys) (hs : sortRecords fl = .ok sl) (hl : l ∈ fl) :
    l ∈ sl := by
  rw [sortRecords_eq fl keys hk] at hs
  obtain ⟨k, hkz⟩ := mem_zip_of_mem keys fl (mapM_ok_length tsInt fl keys hk) l hl
  have henum : (k, l) ∈ (keys.zip fl).enum.map Prod.snd := by
    rw [List.enum_map_snd]; exact hkz
  obtain ⟨q, hq, hq2⟩ := List.mem_map.mp henum
  have hqs : q ∈ sortTagged (keys.zip fl) := (sortTagged_perm (keys.zip fl)).mem_iff.mpr hq
  have : l ∈ (sortTagged (keys.zip fl)).map (fun p => p.2.2) :=
    List.mem_map.mpr ⟨q, hqs, by rw [hq2]⟩
  cases hs
  exact this

theorem tagged_key (pairs : List (Int × JVal)) (hp : ∀ p ∈ pairs, tsInt p.2 = .ok p.1)
    (q : Nat × Int × JVal) (hq : q ∈ sortTagged pairs) : tsInt q.2.2 = .ok q.2.1 := by
  have h1 : q ∈ pairs.enum := (sortTagged_perm pairs).mem_iff.mp hq
  have h2 : q.2 ∈ pairs.enum.map Prod.snd := List.mem_map_of_mem Prod.snd h1
  rw [List.enum_map_snd] at h2
  exact hp q.2 h2

theorem renderLoop_length (t0 : Int) (sl : List JVal) (ev : List String)
    (h : renderLoop t0 sl = (ev, none)) : ev.length = sl.length := by
  induction sl generalizing ev with
  | nil => simp only [renderLoop, Prod.mk.injEq] at h; simp [← h.1]
  | cons l rest ih =>
    unfold renderLoop at h
    cases hr : renderRecord t0 l with
    | error e => rw [hr] at h; simp at h
    | ok line =>
      rw [hr] at h
      simp only [Prod.mk.injEq] at h
      obtain ⟨h1, h2⟩ := h
      have := ih (renderLoop t0 rest).1 (by rw [← h2])
      simp [← h1, this]

theorem renderLoop_err_of_mem (t0 : Int) (sl : List JVal) (l : JVal) (e : PyErr)
    (hl : l ∈ sl) (he : renderRecord t0 l = .error e) :
    (renderLoop t0 sl).2.isSome = true := by
  induction sl with
  | nil => cases hl
  | cons x xs ih =>
    rcases List.mem_cons.mp hl with rfl | hl2
    · unfold renderLoop; rw [he]; rfl
    · unfold renderLoop
      cases hr : renderRecord t0 x with
      | error e2 => rfl
      | ok line => simpa using ih hl2

theorem fdiv_mega_mono {a b : Int} (h : a ≤ b) :
    Int.fdiv a 1000000 ≤ Int.fdiv b 1000000 := by
  rw [Int.fdiv_eq_ediv _ (by norm_num), Int.fdiv_eq_ediv _ (by norm_num)]
  exact Int.ediv_le_ediv (by norm_num) h

theorem tsInt_fdiv (l : JVal) (k : Int) (h : tsInt l = .ok k) :
    ∃ tsv, pySubscriptStr l "timestamp" = .ok tsv ∧
      pyFloorDivMega tsv = .ok (Int.fdiv k 1000000) := by
  unfold tsInt at h
  cases hv : pySubscriptStr l "timestamp" with
  | error e => rw [hv, ebind_err] at h; exact absurd h (by simp)
  | ok v =>
    rw [hv, ebind_ok] at h
    cases v with
    | num n =>
      have hnk : n = k := by simpa using h
      exact ⟨.num n, rfl, by rw [hnk]; rfl⟩
    | bool b =>
      have hbk : (if b then (1 : Int) else 0) = k := by simpa using h
      exact ⟨.bool b, rfl, by rw [← hbk]; rfl⟩
    | null => simp at h
    | str s => simp at h
    | arr xs => simp at h
    | obj kvs => simp at h

theorem sorted_head_min (p0 : Nat × Int × JVal) (T : List (Nat × Int × JVal))
    (h : (p0 :: T).Pairwise (fun a b => leKey a b = true)) :
    ∀ q ∈ T, p0.2.1 ≤ q.2.1 := by
  intro q hq
  have h2 := (List.pairwise_cons.mp h).1 q hq
  simp only [leKey, Bool.or_eq_true, Bool.and_eq_true, decide_eq_true_eq] at h2
  omega

theorem renderRecord_ok_parts (t0 : Int) (l : JVal) (line : String)
    (h : renderRecord t0 l = .ok line) :
    ∃ k meta body resp kind,
      tsInt l = .ok k ∧
      pyGet l "metadata" (.obj []) = .ok meta ∧
      pyGet meta "requestBody" (.obj []) = .ok body ∧
      pyGet meta "responseBody" (.str "") = .ok resp ∧
      kindPart meta body resp = .ok kind ∧
      ((pyTruthy resp = false ∧
          line = String.intercalate "  " [offsetField (Int.fdiv k 1000000 - t0), kind]) ∨
        (pyTruthy resp = true ∧ ∃ sfx, respPart resp = .ok sfx ∧
          line = String.intercalate "  "
            [offsetField (Int.fdiv k 1000000 - t0), kind, sfx])) := by
  unfold renderRecord at h
  cases hv : pySubscriptStr l "timestamp" with
  | error e => rw [hv, ebind_err] at h; exact absurd h (by simp)
  | ok tsv =>
    rw [hv, ebind_ok] at h
    cases hd : pyFloorDivMega tsv with
    | error e => rw [hd, ebind_err] at h; exact absurd h (by simp)
    | ok tsecs =>
      rw [hd, ebind_ok] at h
      cases hm : pyGet l "metadata" (.obj []) with
      | error e => rw [hm, ebind_err] at h; exact absurd h (by simp)
      | ok meta =>
        rw [hm, ebind_ok] at h
        cases hb : pyGet meta "requestBody" (.obj []) with
        | error e => rw [hb, ebind_err] at h; exact absurd h (by simp)
        | ok body =>
          rw [hb, ebind_ok] at h
          cases hrp : pyGet meta "responseBody" (.str "") with
          | error e => rw [hrp, ebind_err] at h; exact absurd h (by simp)
          | ok resp =>
            rw [hrp, ebind_ok] at h
            cases hkp : kindPart meta body resp with
            | error e => rw [hkp, ebind_err] at h; exact absurd h (by simp)
            | ok kind =>
              rw [hkp, ebind_ok] at h
              have hts : ∃ k, tsInt l = .ok k ∧ tsecs = Int.fdiv k 1000000 := by
                cases tsv with
                | num n =>
                  refine ⟨n, by unfold tsInt; rw [hv, ebind_ok], ?_⟩
                  have h2 := hd
                  simp only [pyFloorDivMega, Except.ok.injEq] at h2
                  exact h2.symm
                | bool b =>
                  refine ⟨if b then 1 else 0, by unfold tsInt; rw [hv, ebind_ok], ?_⟩
                  have h2 := hd
                  simp only [pyFloorDivMega, Except.ok.injEq] at h2
                  exact h2.symm
                | null => simp [pyFloorDivMega] at hd
                | str s => simp [pyFloorDivMega] at hd
                | arr xs => simp [pyFloorDivMega] at hd
                | obj kvs => simp [pyFloorDivMega] at hd
              obtain ⟨k, hk, rfl⟩ := hts
              refine ⟨k, meta, body, resp, kind, hk, rfl, hb, hrp, hkp, ?_⟩
              cases htr : pyTruthy resp with
              | false =>
                rw [htr] at h
                refine Or.inl ⟨rfl, ?_⟩
                have h2 : Except.ok (String.intercalate "  "
                    [offsetField (Int.fdiv k 1000000 - t0), kind]) = Except.ok line := h
                exact (Except.ok.inj h2).symm
              | true =>
                rw [htr] at h
                have h2 : (respPart resp >>= fun sfx =>
                      (pure [offsetField (Int.fdiv k 1000000 - t0), kind, sfx] >>=
                        fun parts => Except.ok (String.intercalate "  " parts))) =
                    Except.ok line := h
                cases hsf : respPart resp with
                | error e =>
                  rw [hsf, ebind_err] at h2
                  exact absurd h2 (by simp)
                | ok sfx =>
                  rw [hsf, ebind_ok] at h2
                  refine Or.inr ⟨rfl, sfx, rfl, ?_⟩
                  have h3 : Except.ok (String.intercalate "  "
                      [offsetField (Int.fdiv k 1000000 - t0), kind, sfx]) =
                      Except.ok line := h2
                  exact (Except.ok.inj h3).symm

unseal List.merge List.mergeSort

theorem sortRecords_nil : sortRecords ([] : List JVal) = .ok [] := rfl

/-- The observable behaviour of a run with an explicit, non-empty call-id
argument, once the loader, selector-filter and sort steps are fixed. -/
theorem runScript_explicit (cid : String) (data logs : JVal) (items fl sl : List JVal)
    (hne : cid ≠ "")
    (hget : pyGet data "logs" (.arr []) = .ok logs)
    (htr : pyTruthy logs = true)
    (hit : pyIter logs = .ok items)
    (hfc : filterCall (.str cid) items = .ok fl)
    (hsr : sortRecords fl = .ok sl) :
    runScript (some cid) data =
      (match sl with
       | [] => ⟨["No logs for callId=" ++ cid], none⟩
       | l0 :: _ =>
         match (do
             let tsv ← pySubscriptStr l0 "timestamp"
             pyFloorDivMega tsv : Except PyErr Int) with
         | .error e => ⟨[], some e⟩
         | .ok t0 =>
           ⟨("Call: " ++ cid ++ "  (" ++ toString sl.length ++ " events)") ::
             dashes :: (renderLoop t0 sl).1, (renderLoop t0 sl).2⟩) := by
  unfold runScript
  rw [hget]
  simp only [htr, Option.getD_some, if_neg hne, ebind_ok, hit, hfc, hsr]
  cases sl with
  | nil => simp [pyStrOf]
  | cons l0 rest =>
    simp only [List.isEmpty_cons, List.headD_cons]
    cases ht : (do
        let tsv ← pySubscriptStr l0 "timestamp"
        pyFloorDivMega tsv : Except PyErr Int) with
    | error e => simp [pyStrOf]
    | ok t0 => simp [pyStrOf]

/-! ### Claim theorems -/

/-- C4: for every event with a non-empty `responseBody`, if parsing it as
JSON fails the program does not terminate with an error: the decode stage
returns normally and appends the suffix `" -> "` followed by the first 80
characters of the raw text; in particular `not valid json` yields the
suffix `" -> not valid json"` without a crash. -/
theorem C4_parse_failure_fallback :
    (∀ resp : String, jsonLoads resp = none →
      respSuffix resp = " -> " ++ resp.take 80)
  ∧ (∀ resp : String, respPart (.str resp) = .ok (respSuffix resp))
  ∧ respSuffix "not valid json" = " -> not valid json" := by
  refine ⟨?_, fun resp => rfl, by rfl⟩
  intro resp hj
  unfold respSuffix respSuffixCore
  rw [hj]; rfl

/-- C4 witness: the fallback theorem applied at the concrete non-JSON body
`not valid json`. -/
theorem C4_witness :
    respSuffix "not valid json" = " -> " ++ ("not valid json".take 80) :=
  C4_parse_failure_fallback.1 "not valid json" rfl

/-- C10: for every non-empty string `responseBody` the decoding stage never
raises: it returns either a decoded command suffix or the raw-text fallback
`" -> <first 80 chars>"`; every internal decode exception (root JSON value
not iterable such as a number, or a `Play`/`Redirect` command whose value is
not an object) is caught and produces that fallback. -/
theorem C10_decode_never_raises :
    (∀ resp : String,
      (∃ s, respSuffixCore resp = .ok s ∧ respSuffix resp = s) ∨
      (∃ e, respSuffixCore resp = .error e ∧ respSuffix resp = " -> " ++ resp.take 80))
  ∧ (∀ (resp : String) (n : Int), jsonLoads resp = some (.num n) →
      respSuffix resp = " -> " ++ resp.take 80)
  ∧ (∀ (resp : String) (m : Int) (rest : List JVal),
      jsonLoads resp = some (.arr (.obj [("Play", .num m)] :: rest)) →
      respSuffix resp = " -> " ++ resp.take 80)
  ∧ (∀ (resp : String) (m : Int) (rest : List JVal),
      jsonLoads resp = some (.arr (.obj [("Redirect", .num m)] :: rest)) →
      respSuffix resp = " -> " ++ resp.take 80) := by
  refine ⟨?_, ?_, ?_, ?_⟩
  · intro resp
    cases hc : respSuffixCore resp with
    | ok s => exact Or.inl ⟨s, rfl, by unfold respSuffix; rw [hc]⟩
    | error e => exact Or.inr ⟨e, rfl, by unfold respSuffix; rw [hc]⟩
  · intro resp n hj
    unfold respSuffix respSuffixCore
    rw [hj]; rfl
  · intro resp m rest hj
    unfold respSuffix respSuffixCore
    rw [hj]; rfl
  · intro resp m rest hj
    unfold respSuffix respSuffixCore
    rw [hj]; rfl

/-- C10 witness: the number-root case applied at the concrete body `7`. -/
theorem C10_witness :
    respSuffix "7" = " -> " ++ ("7".take 80) :=
  C10_decode_never_raises.2.1 "7" 7 rfl

/-- C3: for every command object with key `Play`, the rendered name is
`Play(<id>)` where `<id>` is the first match of `id=([^&]+)` against the
value's `file` field (empty string when `file` is absent), `?` when there
is no match, truncated to 24 characters; in particular the response body
`[{"Play":{"file":"http://x?id=abc123&y=1"}}]` yields the suffix
`-> Play(abc123)`. -/
theorem C3_play_command :
    (∀ (ckvs vkvs : List (String × JVal)) (f : String),
      lookupField ckvs "Play" = some (.obj vkvs) →
      fileFieldStr vkvs = some f →
      cmdName (.obj ckvs) (.str "Play") =
        .ok (.str ("Play(" ++ ((idParamSearch f.toList).getD "?").take 24 ++ ")")))
  ∧ respSuffix "[\x7b\"Play\":\x7b\"file\":\"http://x?id=abc123&y=1\"\x7d\x7d]" =
      " -> Play(abc123)" := by
  refine ⟨?_, by rfl⟩
  intro ckvs vkvs f hp hf
  unfold cmdName
  rw [if_pos (show pyEq (.str "Play") (.str "Play") = true from rfl)]
  unfold playName
  have h1 : pySubscriptStr (.obj ckvs) "Play" = .ok (.obj vkvs) := by
    rw [pySubscriptStr_obj, hp]
  rw [h1, ebind_ok]
  unfold fileFieldStr at hf
  cases hlf : lookupField vkvs "file" with
  | none =>
    rw [hlf] at hf
    obtain rfl : "" = f := by simpa using hf
    have h2 : pyGet (.obj vkvs) "file" (.str "") = .ok (.str "") := by
      rw [pyGet_obj, hlf]; rfl
    rw [h2, ebind_ok]
  | some v =>
    rw [hlf] at hf
    cases v with
    | str s =>
      obtain rfl : s = f := by simpa using hf
      have h2 : pyGet (.obj vkvs) "file" (.str "") = .ok (.str s) := by
        rw [pyGet_obj, hlf]; rfl
      rw [h2, ebind_ok]
    | null => simp at hf
    | bool b => simp at hf
    | num n => simp at hf
    | arr xs => simp at hf
    | obj kvs2 => simp at hf

/-- C3 witness: the Play rule applied at the concrete command
`{"Play": {"file": "http://x?id=abc123&y=1"}}`. -/
theorem C3_witness :
    cmdName (.obj [("Play", .obj [("file", .str "http://x?id=abc123&y=1")])]) (.str "Play") =
      .ok (.str ("Play(" ++
        ((idParamSearch "http://x?id=abc123&y=1".toList).getD "?").take 24 ++ ")")) :=
  C3_play_command.1 [("Play", .obj [("file", .str "http://x?id=abc123&y=1")])]
    [("file", .str "http://x?id=abc123&y=1")] "http://x?id=abc123&y=1" rfl rfl

/-- C1: for every rendered record the event kind follows the five-way
first-match-wins priority: `transcript` key present → SPEECH; else
`requestType == "inboundCall"` → CALL; else `requestType == "redirect"` →
REDIR; else non-empty `responseBody` → RESP; else EVENT.  The SPEECH case
carries no hypothesis on `requestType`, so a record satisfying both the
SPEECH and the CALL condition renders as SPEECH. -/
theorem C1_kind_priority (meta resp : JVal) (kvs : List (String × JVal)) :
    ((lookupField kvs "transcript").isSome = true →
      kindPart meta (.obj kvs) resp =
        .ok ("SPEECH  reason=" ++
          pyStrOf ((lookupField kvs "transcribeReason").getD (.str "?")) ++
          "  \"" ++ pyStrOf ((lookupField kvs "transcript").getD (.str "")) ++ "\""))
  ∧ (lookupField kvs "transcript" = none →
      pyEq ((lookupField kvs "requestType").getD .null) (.str "inboundCall") = true →
      kindPart meta (.obj kvs) resp =
        .ok ("CALL    from=" ++ pyStrOf ((lookupField kvs "from").getD (.str "?")) ++
          " to=" ++ pyStrOf ((lookupField kvs "to").getD (.str "?"))))
  ∧ (lookupField kvs "transcript" = none →
      pyEq ((lookupField kvs "requestType").getD .null) (.str "inboundCall") = false →
      pyEq ((lookupField kvs "requestType").getD .null) (.str "redirect") = true →
      ∀ s, kindPart meta (.obj kvs) resp = .ok s → ∃ nv, s = "REDIR   n=" ++ nv)
  ∧ (lookupField kvs "transcript" = none →
      pyEq ((lookupField kvs "requestType").getD .null) (.str "inboundCall") = false →
      pyEq ((lookupField kvs "requestType").getD .null) (.str "redirect") = false →
      pyTruthy resp = true →
      kindPart meta (.obj kvs) resp = .ok "RESP")
  ∧ (lookupField kvs "transcript" = none →
      pyEq ((lookupField kvs "requestType").getD .null) (.str "inboundCall") = false →
      pyEq ((lookupField kvs "requestType").getD .null) (.str "redirect") = false →
      pyTruthy resp = false →
      kindPart meta (.obj kvs) resp = .ok "EVENT") := by
  refine ⟨?_, ?_, ?_, ?_, ?_⟩
  · intro ht
    have h0 : pyInJ "transcript" (JVal.obj kvs) = .ok true := by rw [pyInJ_obj, ht]
    unfold kindPart
    rw [h0, ebind_ok]
    rfl
  · intro hnt hinb
    have h0 : pyInJ "transcript" (JVal.obj kvs) = .ok false := by
      rw [pyInJ_obj, hnt]; rfl
    unfold kindPart
    rw [h0, ebind_ok, if_neg (show ¬(false = true) by simp), pyGet_obj, ebind_ok,
      if_pos hinb]
    rfl
  · intro hnt hinb hred s hs
    have h0 : pyInJ "transcript" (JVal.obj kvs) = .ok false := by
      rw [pyInJ_obj, hnt]; rfl
    unfold kindPart at hs
    rw [h0, ebind_ok, if_neg (show ¬(false = true) by simp), pyGet_obj, ebind_ok,
      if_neg (show ¬(pyEq ((lookupField kvs "requestType").getD .null)
        (.str "inboundCall") = true) by simp [hinb]),
      if_pos hred] at hs
    cases hrh : pyGet meta "requestHeaders" (.obj []) with
    | error e => rw [hrh, ebind_err] at hs; exact absurd hs (by simp)
    | ok rh =>
      rw [hrh, ebind_ok] at hs
      cases hu : pyGet rh "url" (.arr [.str ""]) with
      | error e => rw [hu, ebind_err] at hs; exact absurd hs (by simp)
      | ok urls =>
        rw [hu, ebind_ok] at hs
        cases hz : pyIndexZero urls with
        | error e => rw [hz, ebind_err] at hs; exact absurd hs (by simp)
        | ok u =>
          rw [hz, ebind_ok] at hs
          cases u with
          | str us =>
            exact ⟨(nParamSearch us.toList).getD "?", (Except.ok.inj hs).symm⟩
          | null => simp at hs
          | bool b => simp at hs
          | num n => simp at hs
          | arr xs => simp at hs
          | obj kvs2 => simp at hs
  · intro hnt hinb hred htr
    have h0 : pyInJ "transcript" (JVal.obj kvs) = .ok false := by
      rw [pyInJ_obj, hnt]; rfl
    unfold kindPart
    rw [h0, ebind_ok, if_neg (show ¬(false = true) by simp), pyGet_obj, ebind_ok,
      if_neg (show ¬(pyEq ((lookupField kvs "requestType").getD .null)
        (.str "inboundCall") = true) by simp [hinb]),
      if_neg (show ¬(pyEq ((lookupField kvs "requestType").getD .null)
        (.str "redirect") = true) by simp [hred]),
      if_pos htr]
  · intro hnt hinb hred htr
    have h0 : pyInJ "transcript" (JVal.obj kvs) = .ok false := by
      rw [pyInJ_obj, hnt]; rfl
    unfold kindPart
    rw [h0, ebind_ok, if_neg (show ¬(false = true) by simp), pyGet_obj, ebind_ok,
      if_neg (show ¬(pyEq ((lookupField kvs "requestType").getD .null)
        (.str "inboundCall") = true) by simp [hinb]),
      if_neg (show ¬(pyEq ((lookupField kvs "requestType").getD .null)
        (.str "redirect") = true) by simp [hred]),
      if_neg (show ¬(pyTruthy resp = true) by simp [htr])]

/-- C1 witness: a contrived record satisfying both the SPEECH and the CALL
condition (`transcript` key and `requestType = "inboundCall"`) renders as
SPEECH. -/
theorem C1_witness :
    kindPart (.obj []) (.obj [("transcript", .str "hi"), ("requestType", .str "inboundCall")])
      (.str "") = .ok "SPEECH  reason=?  \"hi\"" := by
  exact (C1_kind_priority (.obj []) (.str "")
    [("transcript", .str "hi"), ("requestType", .str "inboundCall")]).1 rfl

/-- C2: for every record classified REDIR, the displayed value `n` is the
first match of `[&?]n=(\d+)` applied to the first element of
`requestHeaders.url`, with the empty string used for the URL when
`requestHeaders` or its `url` field is absent, and `?` displayed when the
pattern does not match. -/
theorem C2_redirect_display (mkvs kvs : List (String × JVal)) (resp : JVal) (u : String)
    (hnt : lookupField kvs "transcript" = none)
    (hrt : lookupField kvs "requestType" = some (.str "redirect"))
    (hu : urlFirstStr mkvs = some u) :
    kindPart (.obj mkvs) (.obj kvs) resp =
      .ok ("REDIR   n=" ++ ((nParamSearch u.toList).getD "?")) := by
  have h0 : pyInJ "transcript" (JVal.obj kvs) = .ok false := by
    rw [pyInJ_obj, hnt]; rfl
  unfold kindPart
  rw [h0, ebind_ok, if_neg (show ¬(false = true) by simp), pyGet_obj, hrt, ebind_ok,
    if_neg (show ¬(pyEq ((some (JVal.str "redirect")).getD .null)
      (.str "inboundCall") = true) by decide),
    if_pos (show pyEq ((some (JVal.str "redirect")).getD .null)
      (.str "redirect") = true by decide)]
  unfold urlFirstStr at hu
  cases hrh : lookupField mkvs "requestHeaders" with
  | none =>
    rw [hrh] at hu
    obtain rfl : "" = u := by simpa using hu
    rw [pyGet_obj, hrh]
    rfl
  | some v =>
    rw [hrh] at hu
    cases v with
    | obj hkvs =>
      have hu2 : urlOfHeaders hkvs = some u := hu
      unfold urlOfHeaders at hu2
      rw [pyGet_obj, hrh]
      have hstep : (Option.getD (some (JVal.obj hkvs)) (JVal.obj [])) = JVal.obj hkvs := rfl
      rw [hstep, ebind_ok, pyGet_obj]
      cases hurl : lookupField hkvs "url" with
      | none =>
        rw [hurl] at hu2
        obtain rfl : "" = u := by simpa using hu2
        rfl
      | some v2 =>
        rw [hurl] at hu2
        cases v2 with
        | arr xs =>
          cases xs with
          | nil => simp at hu2
          | cons y ys =>
            cases y with
            | str u0 =>
              obtain rfl : u0 = u := by simpa using hu2
              rfl
            | null => simp at hu2
            | bool b => simp at hu2
            | num n => simp at hu2
            | arr zs => simp at hu2
            | obj okvs => simp at hu2
        | null => simp at hu2
        | bool b => simp at hu2
        | num n => simp at hu2
        | str s2 => simp at hu2
        | obj okvs => simp at hu2
    | null => simp at hu
    | bool b => simp at hu
    | num n => simp at hu
    | str s2 => simp at hu
    | arr xs => simp at hu

/-- C2 witness: a redirect record with `requestHeaders.url =
["https://x/?n=3"]` classifies as `REDIR   n=3`. -/
theorem C2_witness :
    kindPart (.obj [("requestHeaders", .obj [("url", .arr [.str "https://x/?n=3"])])])
      (.obj [("requestType", .str "redirect")]) (.str "") = .ok "REDIR   n=3" := by
  exact C2_redirect_display [("requestHeaders", .obj [("url", .arr [.str "https://x/?n=3"])])]
    [("requestType", .str "redirect")] (.str "") "https://x/?n=3" rfl rfl rfl

theorem sortRecords_length (fl : List JVal) (keys : List Int) (sl : List JVal)
    (hk : fl.mapM tsInt = .ok keys) (hs : sortRecords fl = .ok sl) :
    sl.length = fl.length := by
  rw [sortRecords_eq fl keys hk] at hs
  cases hs
  rw [List.length_map, (sortTagged_perm _).length_eq, List.enum_length,
    List.length_zip, mapM_ok_length tsInt fl keys hk, Nat.min_self]

/-- The observable behaviour of a run with an explicit, non-empty call-id
argument when key extraction or sorting raises. -/
theorem runScript_sort_error (cid : String) (data logs : JVal) (items fl : List JVal)
    (e : PyErr)
    (hne : cid ≠ "")
    (hget : pyGet data "logs" (.arr []) = .ok logs)
    (htr : pyTruthy logs = true)
    (hit : pyIter logs = .ok items)
    (hfc : filterCall (.str cid) items = .ok fl)
    (hsr : sortRecords fl = .error e) :
    runScript (some cid) data = ⟨[], some e⟩ := by
  unfold runScript
  rw [hget]
  simp only [htr, Option.getD_some, if_neg hne, ebind_ok, hit, hfc, hsr]
  simp

/-- The observable behaviour of a run with an explicit, non-empty call-id
argument on the full success path: header, separator, then the rendering
loop's lines and error state. -/
theorem runScript_render (cid : String) (data logs : JVal) (items fl : List JVal)
    (l0 : JVal) (rest : List JVal) (t0 : Int)
    (hne : cid ≠ "")
    (hget : pyGet data "logs" (.arr []) = .ok logs)
    (htr : pyTruthy logs = true)
    (hit : pyIter logs = .ok items)
    (hfc : filterCall (.str cid) items = .ok fl)
    (hsr : sortRecords fl = .ok (l0 :: rest))
    (ht : (do
        let tsv ← pySubscriptStr l0 "timestamp"
        pyFloorDivMega tsv : Except PyErr Int) = .ok t0) :
    runScript (some cid) data =
      ⟨("Call: " ++ cid ++ "  (" ++ toString (l0 :: rest).length ++ " events)") ::
        dashes :: (renderLoop t0 (l0 :: rest)).1, (renderLoop t0 (l0 :: rest)).2⟩ := by
  unfold runScript
  rw [hget]
  simp only [htr, Option.getD_some, if_neg hne, ebind_ok, hit, hfc, hsr]
  simp only [List.isEmpty_cons, List.headD_cons]
  rw [ht]
  simp [pyStrOf]

/-- The observable behaviour of a run with no (or an empty) call-id
argument on the full success path: the `Most recent call` announcement,
then header, separator, and the rendering loop's lines and error state. -/
theorem runScript_render_default (data logs l0v : JVal) (cid0 : JVal)
    (items fl : List JVal) (r0 : JVal) (rest : List JVal) (t0 : Int)
    (hget : pyGet data "logs" (.arr []) = .ok logs)
    (htr : pyTruthy logs = true)
    (hiz : pyIndexZero logs = .ok l0v)
    (hcid : pyGet l0v "callId" (.str "") = .ok cid0)
    (hit : pyIter logs = .ok items)
    (hfc : filterCall cid0 items = .ok fl)
    (hsr : sortRecords fl = .ok (r0 :: rest))
    (ht : (do
        let tsv ← pySubscriptStr r0 "timestamp"
        pyFloorDivMega tsv : Except PyErr Int) = .ok t0) :
    runScript none data =
      ⟨("Most recent call: " ++ pyStrOf cid0) ::
        ("Call: " ++ pyStrOf cid0 ++ "  (" ++ toString (r0 :: rest).length ++
          " events)") ::
        dashes :: (renderLoop t0 (r0 :: rest)).1, (renderLoop t0 (r0 :: rest)).2⟩ := by
  unfold runScript
  rw [hget]
  simp [htr, Option.getD_none, hiz, ebind_ok, hcid, hit, hfc, hsr, ht,
    List.isEmpty_cons, List.headD_cons, pyStrOf]

theorem respSuffixCore_shape (resp : String) (s : String)
    (h : respSuffixCore resp = .ok s) : ∃ j, s = " -> " ++ j := by
  unfold respSuffixCore at h
  cases hj : jsonLoads resp with
  | none =>
    rw [hj] at h
    have h2 : (Except.error PyErr.valueError : Except PyErr String) = Except.ok s := h
    exact absurd h2 (by simp)
  | some v =>
    rw [hj] at h
    have h2 : (pyIter v >>= fun items =>
        (cmdNames items >>= fun names =>
          (joinNames names >>= fun joined =>
            Except.ok (" -> " ++ joined)))) = Except.ok s := h
    cases hi : pyIter v with
    | error e => rw [hi, ebind_err] at h2; exact absurd h2 (by simp)
    | ok items =>
      rw [hi, ebind_ok] at h2
      cases hn : cmdNames items with
      | error e => rw [hn, ebind_err] at h2; exact absurd h2 (by simp)
      | ok names =>
        rw [hn, ebind_ok] at h2
        cases hjn : joinNames names with
        | error e => rw [hjn, ebind_err] at h2; exact absurd h2 (by simp)
        | ok joined =>
          rw [hjn, ebind_ok] at h2
          exact ⟨joined, (Except.ok.inj h2).symm⟩

theorem respPart_suffix (resp : JVal) (sfx : String) (h : respPart resp = .ok sfx) :
    ∃ t, sfx = " -> " ++ t := by
  unfold respPart at h
  cases resp with
  | str s =>
    have hs : respSuffix s = sfx := by simpa using h
    unfold respSuffix at hs
    cases hc : respSuffixCore s with
    | ok u =>
      rw [hc] at hs
      obtain ⟨j, hj⟩ := respSuffixCore_shape s u hc
      exact ⟨j, by rw [← hs, hj]⟩
    | error e =>
      rw [hc] at hs
      exact ⟨s.take 80, hs.symm⟩
  | arr xs => exact ⟨reprJ (.arr (xs.take 80)), by simpa using h.symm⟩
  | null => simp at h
  | bool b => simp at h
  | num n => simp at h
  | obj kvs => simp at h

/-- C7: on input `{"logs": []}` (or input missing the `logs` key) the
program prints exactly `No logs found.` and terminates successfully; on
input whose records none match an explicitly supplied call identifier it
prints exactly `No logs for callId=<id>` and terminates successfully. -/
theorem C7_empty_and_nomatch :
    (∀ (argv1 : Option String) (kvs : List (String × JVal)),
      lookupField kvs "logs" = none →
      runScript argv1 (.obj kvs) = ⟨["No logs found."], none⟩)
  ∧ (∀ (argv1 : Option String) (kvs : List (String × JVal)),
      lookupField kvs "logs" = some (.arr []) →
      runScript argv1 (.obj kvs) = ⟨["No logs found."], none⟩)
  ∧ (∀ (cid : String) (data logs : JVal) (items : List JVal),
      cid ≠ "" →
      pyGet data "logs" (.arr []) = .ok logs →
      pyTruthy logs = true →
      pyIter logs = .ok items →
      filterCall (.str cid) items = .ok [] →
      runScript (some cid) data = ⟨["No logs for callId=" ++ cid], none⟩) := by
  refine ⟨?_, ?_, ?_⟩
  · intro argv1 kvs hlk
    unfold runScript
    rw [pyGet_obj, hlk]
    rfl
  · intro argv1 kvs hlk
    unfold runScript
    rw [pyGet_obj, hlk]
    rfl
  · intro cid data logs items hne hget htr hit hfc
    rw [runScript_explicit cid data logs items [] [] hne hget htr hit hfc sortRecords_nil]

/-- C7 witness: both outcomes at concrete inputs (`{"logs": []}`, and a
single-record input with a non-matching explicit call id). -/
theorem C7_witness :
    runScript (some "x") (.obj [("logs", .arr [])]) = ⟨["No logs found."], none⟩
  ∧ runScript (some "zz")
      (.obj [("logs", .arr [.obj [("callId", .str "c2"), ("timestamp", .num 5)]])]) =
      ⟨["No logs for callId=" ++ "zz"], none⟩ := by
  constructor
  · exact C7_empty_and_nomatch.2.1 (some "x") [("logs", .arr [])] rfl
  · exact C7_empty_and_nomatch.2.2 "zz"
      (.obj [("logs", .arr [.obj [("callId", .str "c2"), ("timestamp", .num 5)]])])
      (.arr [.obj [("callId", .str "c2"), ("timestamp", .num 5)]])
      [.obj [("callId", .str "c2"), ("timestamp", .num 5)]]
      (by decide) rfl rfl rfl rfl

/-- C8: before any event lines the program prints the header
`Call: <callId>  (<N> events)` with `N` the number of matching records,
then a separator of exactly 80 `-` characters; each event line is the
offset field `+<offset right-aligned to width 4>s`, a two-space separator,
the kind display string, and — when `responseBody` is non-empty — a suffix
of the form `" -> <text>"` (the joined command names or the raw fallback)
appended as a further two-space-separated part. -/
theorem C8_header_and_line_format :
    (∀ (cid : String) (data logs : JVal) (items fl sl : List JVal) (t0 : Int)
      (l0 : JVal) (rest : List JVal),
      cid ≠ "" →
      pyGet data "logs" (.arr []) = .ok logs →
      pyTruthy logs = true →
      pyIter logs = .ok items →
      filterCall (.str cid) items = .ok fl →
      sortRecords fl = .ok sl →
      sl = l0 :: rest →
      (do
        let tsv ← pySubscriptStr l0 "timestamp"
        pyFloorDivMega tsv : Except PyErr Int) = .ok t0 →
      runScript (some cid) data =
        ⟨("Call: " ++ cid ++ "  (" ++ toString fl.length ++ " events)") ::
          dashes :: (renderLoop t0 sl).1, (renderLoop t0 sl).2⟩)
  ∧ (∀ (data logs l0v cid0 : JVal) (items fl : List JVal) (r0 : JVal)
      (rest : List JVal) (t0 : Int),
      pyGet data "logs" (.arr []) = .ok logs →
      pyTruthy logs = true →
      pyIndexZero logs = .ok l0v →
      pyGet l0v "callId" (.str "") = .ok cid0 →
      pyIter logs = .ok items →
      filterCall cid0 items = .ok fl →
      sortRecords fl = .ok (r0 :: rest) →
      (do
        let tsv ← pySubscriptStr r0 "timestamp"
        pyFloorDivMega tsv : Except PyErr Int) = .ok t0 →
      runScript none data =
        ⟨("Most recent call: " ++ pyStrOf cid0) ::
          ("Call: " ++ pyStrOf cid0 ++ "  (" ++ toString fl.length ++ " events)") ::
          dashes :: (renderLoop t0 (r0 :: rest)).1, (renderLoop t0 (r0 :: rest)).2⟩)
  ∧ (dashes.length = 80 ∧ dashes.toList.all (fun c => c = '-') = true)
  ∧ (∀ (off : Int), offsetField off =
      "+" ++ String.mk (List.replicate (4 - (toString off).length) ' ') ++
        toString off ++ "s")
  ∧ (∀ (t0 : Int) (l : JVal) (line : String), renderRecord t0 l = .ok line →
      ∃ off kind,
        line = String.intercalate "  " [offsetField off, kind] ∨
        ∃ t, line = String.intercalate "  " [offsetField off, kind, " -> " ++ t]) := by
  refine ⟨?_, ?_, ⟨by decide, by decide⟩, fun off => rfl, ?_⟩
  · intro cid data logs items fl sl t0 l0 rest hne hget htr hit hfc hsr h0 ht
    subst h0
    have hkeys : ∃ keys, fl.mapM tsInt = .ok keys := by
      cases hm : fl.mapM tsInt with
      | error e =>
        rw [sortRecords] at hsr; rw [hm, ebind_err] at hsr; exact absurd hsr (by simp)
      | ok keys => exact ⟨keys, rfl⟩
    obtain ⟨keys, hm⟩ := hkeys
    have hlen : (l0 :: rest).length = fl.length :=
      sortRecords_length fl keys (l0 :: rest) hm hsr
    rw [← hlen]
    exact runScript_render cid data logs items fl l0 rest t0 hne hget htr hit hfc hsr ht
  · intro data logs l0v cid0 items fl r0 rest t0 hget htr hiz hcid hit hfc hsr ht
    have hkeys : ∃ keys, fl.mapM tsInt = .ok keys := by
      cases hm : fl.mapM tsInt with
      | error e =>
        rw [sortRecords] at hsr; rw [hm, ebind_err] at hsr; exact absurd hsr (by simp)
      | ok keys => exact ⟨keys, rfl⟩
    obtain ⟨keys, hm⟩ := hkeys
    have hlen : (r0 :: rest).length = fl.length :=
      sortRecords_length fl keys (r0 :: rest) hm hsr
    rw [← hlen]
    exact runScript_render_default data logs l0v cid0 items fl r0 rest t0
      hget htr hiz hcid hit hfc hsr ht
  · intro t0 l line h
    obtain ⟨k, meta, body, resp, kind, hk, hmm, hb, hrp, hkp, hform⟩ :=
      renderRecord_ok_parts t0 l line h
    rcases hform with ⟨htr, hline⟩ | ⟨htr, sfx, hsf, hline⟩
    · exact ⟨Int.fdiv k 1000000 - t0, kind, Or.inl hline⟩
    · obtain ⟨t, ht⟩ := respPart_suffix resp sfx hsf
      exact ⟨Int.fdiv k 1000000 - t0, kind, Or.inr ⟨t, by rw [hline, ht]⟩⟩

/-- C8 witness: the header/separator part applied at a concrete one-record
input whose record carries a non-empty `responseBody`. -/
theorem C8_witness :
    runScript (some "c")
      (.obj [("logs", .arr [.obj [("callId", .str "c"), ("timestamp", .num 3000000),
        ("metadata", .obj [("responseBody", .str "[]")])]])]) =
      ⟨("Call: " ++ "c" ++ "  (" ++
          toString [JVal.obj [("callId", .str "c"), ("timestamp", .num 3000000),
            ("metadata", .obj [("responseBody", .str "[]")])]].length ++ " events)") ::
        dashes ::
        (renderLoop 3
          [.obj [("callId", .str "c"), ("timestamp", .num 3000000),
            ("metadata", .obj [("responseBody", .str "[]")])]]).1,
       (renderLoop 3
          [.obj [("callId", .str "c"), ("timestamp", .num 3000000),
            ("metadata", .obj [("responseBody", .str "[]")])]]).2⟩ := by
  exact C8_header_and_line_format.1 "c"
    (.obj [("logs", .arr [.obj [("callId", .str "c"), ("timestamp", .num 3000000),
      ("metadata", .obj [("responseBody", .str "[]")])]])])
    (.arr [.obj [("callId", .str "c"), ("timestamp", .num 3000000),
      ("metadata", .obj [("responseBody", .str "[]")])]])
    [.obj [("callId", .str "c"), ("timestamp", .num 3000000),
      ("metadata", .obj [("responseBody", .str "[]")])]]
    [.obj [("callId", .str "c"), ("timestamp", .num 3000000),
      ("metadata", .obj [("responseBody", .str "[]")])]]
    [.obj [("callId", .str "c"), ("timestamp", .num 3000000),
      ("metadata", .obj [("responseBody", .str "[]")])]]
    3
    (.obj [("callId", .str "c"), ("timestamp", .num 3000000),
      ("metadata", .obj [("responseBody", .str "[]")])])
    [] (by decide) rfl rfl rfl rfl rfl rfl rfl

theorem leKey_le (a b : Nat × Int × JVal) (h : leKey a b = true) : a.2.1 ≤ b.2.1 := by
  simp only [leKey, Bool.or_eq_true, Bool.and_eq_true, decide_eq_true_eq] at h
  omega

theorem leKey_stab (a b : Nat × Int × JVal) (h : leKey a b = true) :
    a.2.1 = b.2.1 → a.1 ≤ b.1 := by
  simp only [leKey, Bool.or_eq_true, Bool.and_eq_true, decide_eq_true_eq] at h
  omega

/-- C5 counterexample: an input with exactly one record matching the
explicit call id `c`, whose `requestBody` is the number `5`.  The run dies
with a TypeError after printing only the header and the separator, so zero
event lines are printed while one record matches — refuting the claim as
universally stated over all inputs. -/
theorem C5_counterexample :
    filterCall (.str "c")
      [.obj [("callId", .str "c"), ("timestamp", .num 0),
        ("metadata", .obj [("requestBody", .num 5)])]] =
      .ok [.obj [("callId", .str "c"), ("timestamp", .num 0),
        ("metadata", .obj [("requestBody", .num 5)])]]
  ∧ runScript (some "c")
      (.obj [("logs", .arr [.obj [("callId", .str "c"), ("timestamp", .num 0),
        ("metadata", .obj [("requestBody", .num 5)])]])]) =
      ⟨["Call: c  (1 events)", dashes], some .typeError⟩ := ⟨rfl, rfl⟩

/-- C5 (amended): for every input with at least one matching record ON
WHICH THE RENDERING LOOP COMPLETES WITHOUT RAISING, the number of event
lines equals the number of matching records, the sorted timeline is in
non-decreasing timestamp order, and records with identical timestamps keep
their relative input order (positions in the tagged sorted sequence). -/
theorem C5_count_order_stability (fl : List JVal) (keys : List Int) (sl : List JVal)
    (t0 : Int) (ev : List String)
    (hk : fl.mapM tsInt = .ok keys)
    (hs : sortRecords fl = .ok sl)
    (hr : renderLoop t0 sl = (ev, none)) :
    ev.length = fl.length
  ∧ sl = (sortTagged (keys.zip fl)).map (fun p => p.2.2)
  ∧ (sortTagged (keys.zip fl)).Perm (keys.zip fl).enum
  ∧ (sortTagged (keys.zip fl)).Pairwise (fun a b => a.2.1 ≤ b.2.1)
  ∧ (sortTagged (keys.zip fl)).Pairwise (fun a b => a.2.1 = b.2.1 → a.1 ≤ b.1)
  ∧ sl.Pairwise (fun a b => ∀ x y, tsInt a = .ok x → tsInt b = .ok y → x ≤ y) := by
  have hseq := sortRecords_eq fl keys hk
  rw [hseq] at hs
  have hsl : sl = (sortTagged (keys.zip fl)).map (fun p => p.2.2) := (Except.ok.inj hs).symm
  refine ⟨?_, hsl, sortTagged_perm _, ?_, ?_, ?_⟩
  · rw [renderLoop_length t0 sl ev hr, hsl, List.length_map,
      (sortTagged_perm _).length_eq, List.enum_length, List.length_zip,
      mapM_ok_length tsInt fl keys hk, Nat.min_self]
  · exact (sortTagged_pairwise _).imp (fun hab => leKey_le _ _ hab)
  · exact (sortTagged_pairwise _).imp (fun hab => leKey_stab _ _ hab)
  · rw [hsl, List.pairwise_map]
    refine List.Pairwise.imp_of_mem ?_ (sortTagged_pairwise _)
    intro a b ha hb hab x y hx hy
    have hka := tagged_key _ (mapM_tsInt_zip fl keys hk) a ha
    have hkb := tagged_key _ (mapM_tsInt_zip fl keys hk) b hb
    rw [hx] at hka
    rw [hy] at hkb
    have hxa : x = a.2.1 := Except.ok.inj hka
    have hyb : y = b.2.1 := Except.ok.inj hkb
    have hle := leKey_le a b hab
    omega

/-- C5 witness: two records sharing the same timestamp (and call id) keep
their input order in the sorted tagged sequence. -/
theorem C5_witness :
    [JVal.obj [("callId", .str "c"), ("timestamp", .num 1000000), ("seq", .num 1)],
     JVal.obj [("callId", .str "c"), ("timestamp", .num 1000000), ("seq", .num 2)]] =
      (sortTagged ([(1000000 : Int), 1000000].zip
        [JVal.obj [("callId", .str "c"), ("timestamp", .num 1000000), ("seq", .num 1)],
         JVal.obj [("callId", .str "c"), ("timestamp", .num 1000000), ("seq", .num 2)]])).map
        (fun p => p.2.2) := by
  exact (C5_count_order_stability
    [JVal.obj [("callId", .str "c"), ("timestamp", .num 1000000), ("seq", .num 1)],
     JVal.obj [("callId", .str "c"), ("timestamp", .num 1000000), ("seq", .num 2)]]
    [1000000, 1000000]
    [JVal.obj [("callId", .str "c"), ("timestamp", .num 1000000), ("seq", .num 1)],
     JVal.obj [("callId", .str "c"), ("timestamp", .num 1000000), ("seq", .num 2)]]
    0 ["+   1s  EVENT", "+   1s  EVENT"] rfl rfl rfl).2.1

/-- C6: with `t0` the integer division by 1,000,000 of the earliest sorted
record's timestamp, each rendered event line displays the offset
`timestamp // 1_000_000 − t0`; every such offset is non-negative, and the
offset of the first event is 0. -/
theorem C6_offsets (fl : List JVal) (keys : List Int) (sl : List JVal)
    (l0 : JVal) (rest : List JVal) (k0 : Int)
    (hk : fl.mapM tsInt = .ok keys)
    (hs : sortRecords fl = .ok sl)
    (h0 : sl = l0 :: rest)
    (h0k : tsInt l0 = .ok k0) :
    ((do
        let tsv ← pySubscriptStr l0 "timestamp"
        pyFloorDivMega tsv : Except PyErr Int) = .ok (Int.fdiv k0 1000000))
  ∧ (∀ l ∈ sl, ∀ k, tsInt l = .ok k →
      0 ≤ Int.fdiv k 1000000 - Int.fdiv k0 1000000)
  ∧ (∀ l ∈ sl, ∀ line, renderRecord (Int.fdiv k0 1000000) l = .ok line →
      ∃ k parts, tsInt l = .ok k ∧
        line = String.intercalate "  "
          (offsetField (Int.fdiv k 1000000 - Int.fdiv k0 1000000) :: parts))
  ∧ (∀ line, renderRecord (Int.fdiv k0 1000000) l0 = .ok line →
      ∃ parts, line = String.intercalate "  " (offsetField 0 :: parts)) := by
  have hseq := sortRecords_eq fl keys hk
  rw [hseq] at hs
  have hsl : sl = (sortTagged (keys.zip fl)).map (fun p => p.2.2) := (Except.ok.inj hs).symm
  obtain ⟨p0, T2, hT⟩ : ∃ p0 T2, sortTagged (keys.zip fl) = p0 :: T2 := by
    cases hc : sortTagged (keys.zip fl) with
    | nil => rw [hc] at hsl; rw [h0] at hsl; simp at hsl
    | cons p0 T2 => exact ⟨p0, T2, rfl⟩
  have hpw := sortTagged_pairwise (keys.zip fl)
  rw [hT] at hpw
  have hl0 : l0 = p0.2.2 := by
    rw [h0, hT] at hsl
    exact (List.cons.inj hsl).1
  have hkp0 : tsInt p0.2.2 = .ok p0.2.1 :=
    tagged_key _ (mapM_tsInt_zip fl keys hk) p0 (by rw [hT]; exact List.mem_cons_self _ _)
  have hk0 : k0 = p0.2.1 := by
    rw [hl0, hkp0] at h0k
    exact (Except.ok.inj h0k).symm
  have hmin : ∀ l ∈ sl, ∀ k, tsInt l = .ok k → k0 ≤ k := by
    intro l hl k hkk
    rw [hsl] at hl
    obtain ⟨q, hqT, hq2⟩ := List.mem_map.mp hl
    have hkq : tsInt q.2.2 = .ok q.2.1 :=
      tagged_key _ (mapM_tsInt_zip fl keys hk) q hqT
    rw [hq2, hkk] at hkq
    have hkq2 : k = q.2.1 := Except.ok.inj hkq
    rw [hT] at hqT
    rcases List.mem_cons.mp hqT with rfl | hqT2
    · omega
    · have := sorted_head_min p0 T2 hpw q hqT2
      omega
  refine ⟨?_, ?_, ?_, ?_⟩
  · obtain ⟨tsv, h1, h2⟩ := tsInt_fdiv l0 k0 h0k
    rw [h1, ebind_ok]
    exact h2
  · intro l hl k hkk
    have h1 := hmin l hl k hkk
    have h2 := fdiv_mega_mono h1
    omega
  · intro l hl line hren
    obtain ⟨k, meta, body, resp, kind, hkk, _, _, _, _, hform⟩ :=
      renderRecord_ok_parts (Int.fdiv k0 1000000) l line hren
    rcases hform with ⟨_, hline⟩ | ⟨_, sfx, _, hline⟩
    · exact ⟨k, [kind], hkk, hline⟩
    · exact ⟨k, [kind, sfx], hkk, hline⟩
  · intro line hren
    obtain ⟨k, meta, body, resp, kind, hkk, _, _, _, _, hform⟩ :=
      renderRecord_ok_parts (Int.fdiv k0 1000000) l0 line hren
    have hkeq : k = k0 := by
      rw [h0k] at hkk
      exact (Except.ok.inj hkk).symm
    rcases hform with ⟨_, hline⟩ | ⟨_, sfx, _, hline⟩
    · exact ⟨[kind], by rw [hline, hkeq, sub_self]⟩
    · exact ⟨[kind, sfx], by rw [hline, hkeq, sub_self]⟩

/-- C6 witness: a single-record timeline whose timestamp is 5,000,000
microseconds: `t0` is computed as `5000000 // 1000000 = 5`. -/
theorem C6_witness :
    (do
      let tsv ← pySubscriptStr
        (.obj [("callId", .str "c"), ("timestamp", .num 5000000)]) "timestamp"
      pyFloorDivMega tsv : Except PyErr Int) = .ok (Int.fdiv 5000000 1000000) := by
  exact (C6_offsets [.obj [("callId", .str "c"), ("timestamp", .num 5000000)]]
    [5000000] [.obj [("callId", .str "c"), ("timestamp", .num 5000000)]]
    (.obj [("callId", .str "c"), ("timestamp", .num 5000000)]) [] 5000000
    rfl rfl rfl rfl).1

/-- C9 counterexample: a redirect record whose `requestHeaders.url` is the
non-empty string `"abc"` — present and not a list, violating the claimed
precondition — yet the program completes without raising (Python string
indexing yields the first character, and the regex search simply fails,
displaying `n=?`). -/
theorem C9_counterexample :
    lookupField [("url", JVal.str "abc")] "url" = some (.str "abc")
  ∧ runScript (some "c")
      (.obj [("logs", .arr [.obj [("callId", .str "c"), ("timestamp", .num 0),
        ("metadata", .obj [("requestBody", .obj [("requestType", .str "redirect")]),
          ("requestHeaders", .obj [("url", .str "abc")])])]])]) =
      ⟨["Call: c  (1 events)", dashes, "+   0s  REDIR   n=?"], none⟩ := ⟨rfl, rfl⟩

/-- C9 (amended): the run is free of uncaught exceptions only if every
matching record has a `timestamp` key, and every redirect-classified
record's `requestHeaders.url` value, when present, supports element-0
access — i.e. is a non-empty list or a non-empty string.  A matching
record without `timestamp` makes the program raise at sort-key extraction;
a redirect record whose present `url` is an empty list, empty string,
`None`, number, boolean or dict makes the classification raise, and any
record whose rendering raises makes the whole run raise. -/
theorem C9_crash_preconditions :
    ((∀ (x : JVal) (xs : List JVal), pyIndexZero (.arr (x :: xs)) = .ok x)
      ∧ (∀ s : String, s ≠ "" → ∃ u, pyIndexZero (.str s) = .ok u)
      ∧ pyIndexZero (.arr []) = .error .indexError
      ∧ pyIndexZero (.str "") = .error .indexError
      ∧ pyIndexZero .null = .error .typeError
      ∧ (∀ n : Int, pyIndexZero (.num n) = .error .typeError)
      ∧ (∀ b : Bool, pyIndexZero (.bool b) = .error .typeError)
      ∧ (∀ okvs : List (String × JVal), pyIndexZero (.obj okvs) = .error .keyError))
  ∧ (∀ (cid : String) (data logs : JVal) (items fl : List JVal) (l : JVal)
      (lkvs : List (String × JVal)),
      cid ≠ "" →
      pyGet data "logs" (.arr []) = .ok logs →
      pyTruthy logs = true →
      pyIter logs = .ok items →
      filterCall (.str cid) items = .ok fl →
      l ∈ fl → l = .obj lkvs → lookupField lkvs "timestamp" = none →
      (runScript (some cid) data).err.isSome = true)
  ∧ (∀ (mkvs kvs hkvs : List (String × JVal)) (resp uv : JVal) (e : PyErr),
      lookupField kvs "transcript" = none →
      lookupField kvs "requestType" = some (.str "redirect") →
      lookupField mkvs "requestHeaders" = some (.obj hkvs) →
      lookupField hkvs "url" = some uv →
      pyIndexZero uv = .error e →
      kindPart (.obj mkvs) (.obj kvs) resp = .error e)
  ∧ (∀ (t0 : Int) (l : JVal) (k : Int) (mv bv rv : JVal) (e : PyErr),
      tsInt l = .ok k →
      pyGet l "metadata" (.obj []) = .ok mv →
      pyGet mv "requestBody" (.obj []) = .ok bv →
      pyGet mv "responseBody" (.str "") = .ok rv →
      kindPart mv bv rv = .error e →
      renderRecord t0 l = .error e)
  ∧ (∀ (t0 : Int) (sl : List JVal) (l : JVal) (e : PyErr),
      l ∈ sl → renderRecord t0 l = .error e →
      (renderLoop t0 sl).2.isSome = true)
  ∧ (∀ (cid : String) (data logs : JVal) (items fl : List JVal) (l0 : JVal)
      (rest : List JVal) (t0 : Int) (e : PyErr),
      cid ≠ "" →
      pyGet data "logs" (.arr []) = .ok logs →
      pyTruthy logs = true →
      pyIter logs = .ok items →
      filterCall (.str cid) items = .ok fl →
      sortRecords fl = .ok (l0 :: rest) →
      (do
        let tsv ← pySubscriptStr l0 "timestamp"
        pyFloorDivMega tsv : Except PyErr Int) = .ok t0 →
      (renderLoop t0 (l0 :: rest)).2 = some e →
      (runScript (some cid) data).err.isSome = true) := by
  refine ⟨⟨fun x xs => rfl, ?_, rfl, rfl, rfl, fun n => rfl, fun b => rfl, fun okvs => rfl⟩,
    ?_, ?_, ?_, ?_, ?_⟩
  · intro s hs
    cases s with
    | mk data =>
      cases data with
      | nil => exact absurd rfl hs
      | cons c cs => exact ⟨.str (String.mk [c]), rfl⟩
  · intro cid data logs items fl l lkvs hne hget htr hit hfc hl hobj hnots
    have hterr : tsInt l = .error .keyError := by
      rw [hobj]
      unfold tsInt
      rw [pySubscriptStr_obj, hnots, ebind_err]
    obtain ⟨e2, hmm2⟩ := mapM_err_of_mem tsInt fl l .keyError hl hterr
    have hsre : sortRecords fl = .error e2 := by
      unfold sortRecords
      rw [hmm2, ebind_err]
    rw [runScript_sort_error cid data logs items fl e2 hne hget htr hit hfc hsre]
    rfl
  · intro mkvs kvs hkvs resp uv e hnt hrt hrh hurl hbad
    have h0 : pyInJ "transcript" (JVal.obj kvs) = .ok false := by
      rw [pyInJ_obj, hnt]; rfl
    unfold kindPart
    rw [h0, ebind_ok, if_neg (show ¬(false = true) by simp), pyGet_obj, hrt, ebind_ok,
      if_neg (show ¬(pyEq ((some (JVal.str "redirect")).getD .null)
        (.str "inboundCall") = true) by decide),
      if_pos (show pyEq ((some (JVal.str "redirect")).getD .null)
        (.str "redirect") = true by decide),
      pyGet_obj, hrh]
    have hstep : (Option.getD (some (JVal.obj hkvs)) (JVal.obj [])) = JVal.obj hkvs := rfl
    rw [hstep, ebind_ok, pyGet_obj, hurl]
    have hstep2 : (Option.getD (some uv) (JVal.arr [JVal.str ""])) = uv := rfl
    rw [hstep2, ebind_ok, hbad, ebind_err]
  · intro t0 l k mv bv rv e htsk hmv hbv hrv hkp
    obtain ⟨tsv, h1, h2⟩ := tsInt_fdiv l k htsk
    unfold renderRecord
    rw [h1, ebind_ok, h2, ebind_ok, hmv, ebind_ok, hbv, ebind_ok, hrv, ebind_ok,
      hkp, ebind_err]
  · intro t0 sl l e hl he
    exact renderLoop_err_of_mem t0 sl l e hl he
  · intro cid data logs items fl l0 rest t0 e hne hget htr hit hfc hsr ht hloop
    rw [runScript_render cid data logs items fl l0 rest t0 hne hget htr hit hfc hsr ht]
    simp [hloop]

/-- C9 witness: a single matching record without a `timestamp` key makes
the run raise. -/
theorem C9_witness :
    (runScript (some "c")
      (.obj [("logs", .arr [.obj [("callId", .str "c")]])])).err.isSome = true := by
  exact C9_crash_preconditions.2.1 "c"
    (.obj [("logs", .arr [.obj [("callId", .str "c")]])])
    (.arr [.obj [("callId", .str "c")]])
    [.obj [("callId", .str "c")]]
    [.obj [("callId", .str "c")]]
    (.obj [("callId", .str "c")])
    [("callId", .str "c")]
    (by decide) rfl rfl rfl rfl (List.mem_cons_self _ _) rfl rfl

end VoxLogs
